import Mathlib

/-!
Shallow embedding of `src/python-server/embedding_server.py` (clarity-mcp).

The Python file defines an embedding HTTP service:
  * `FallbackEmbedder.encode` — a deterministic hash-based text embedder
    producing 768-dimensional vectors (lines 98-121);
  * `load_model` — the tiered encoder resolution at startup (lines 50-128);
  * `embed_texts` — the `POST /embed` handler: validation, encoding,
    response shaping (lines 144-176).

Python floats `np.sin`, `np.log`, `np.linalg.norm` are modelled over the
real numbers `ℝ` (`Real.sin`, `Real.log`, square root of sum of squares);
the spec itself declares bit-level floating-point agreement a non-goal.
All discrete structure (character codes, indices, validation, counters)
is modelled exactly and kept computable.
-/

namespace EmbeddingServer

/-- Remove leading and trailing whitespace characters from a character
list (Python `str.strip()` with no argument). -/
def stripChars (l : List Char) : List Char :=
  ((l.dropWhile Char.isWhitespace).reverse.dropWhile Char.isWhitespace).reverse

/-- Python `text.lower().strip()` (line 104): lowercase every character,
then strip leading/trailing whitespace. -/
def normalizeText (text : String) : String :=
  ⟨stripChars (text.data.map Char.toLower)⟩

/-- Helper for `countWords`: counts maximal runs of non-whitespace
characters; the flag records whether the previous character was inside
a word. -/
def countWordsAux : List Char → Bool → ℕ
  | [], _ => 0
  | c :: rest, inWord =>
    if Char.isWhitespace c then countWordsAux rest false
    else (if inWord then 0 else 1) + countWordsAux rest true

/-- Python `len(text.split())` (lines 169-170): the number of
whitespace-delimited words; `str.split()` with no argument splits on
runs of whitespace and drops empty pieces, so this is the number of
maximal non-whitespace runs. -/
def countWords (s : String) : ℕ := countWordsAux s.data false

/-- Line 108: `idx = (char_code * 7 + i * 11) % 768`, landed in `Fin 768`. -/
def mkIdx (c i : ℕ) : Fin 768 :=
  ⟨(c * 7 + i * 11) % 768, Nat.mod_lt _ (by norm_num)⟩

/-- One iteration of the accumulation loop (lines 106-109):
`embedding[idx] += np.sin(char_code + i) * 0.1` for the pair
(position `i`, character `char`). -/
noncomputable def accumStep (v : Fin 768 → ℝ) (ic : ℕ × Char) : Fin 768 → ℝ :=
  Function.update v (mkIdx ic.2.toNat ic.1)
    (v (mkIdx ic.2.toNat ic.1) + Real.sin ((ic.2.toNat + ic.1 : ℕ) : ℝ) * 0.1)

/-- The accumulation loop over `enumerate(text_clean[:100])`
(lines 106-109), starting from `np.zeros(768)` (line 103); `s` is the
already-normalized text. -/
noncomputable def rawAccum (s : String) : Fin 768 → ℝ :=
  ((s.data.take 100).enum).foldl accumStep (fun _ => 0)

/-- Lines 103-112: the embedding vector after the accumulation loop and
the length-feature overwrite `embedding[0] = np.log(len(text_clean) + 1) * 0.1`
(line 112), before normalization. -/
noncomputable def fallbackRaw (text : String) : Fin 768 → ℝ :=
  let s := normalizeText text
  Function.update (rawAccum s) 0 (Real.log ((s.length : ℝ) + 1) * 0.1)

/-- `np.linalg.norm` (line 115): the L2 norm of a 768-vector. -/
noncomputable def l2norm (v : Fin 768 → ℝ) : ℝ :=
  Real.sqrt (∑ j, v j ^ 2)

/-- Lines 103-117: one text's final embedding; the vector is divided by
its norm only when `norm > 0` (lines 115-117). -/
noncomputable def fallbackVector (text : String) : Fin 768 → ℝ :=
  let v := fallbackRaw text
  let n := l2norm v
  if n > 0 then (fun j => v j / n) else v

/-- `FallbackEmbedder.encode` (lines 99-121): per-text embedding, in input
order; `np.array(embeddings)`/`tolist()` rendered as `List (List ℝ)`. -/
noncomputable def FallbackEmbedder.encode (texts : List String) : List (List ℝ) :=
  texts.map (fun t => List.ofFn (fallbackVector t))

/-- An encoder as the service sees it: `encode(texts)` either returns one
vector per text or raises with a message (the `except Exception` at
line 174 catches whatever `embedder.encode` raises). -/
def Encoder : Type := List String → Except String (List (List ℝ))

/-- The fallback tier wrapped as an `Encoder`: its `encode` is total. -/
noncomputable def fallbackEncoderE : Encoder :=
  fun texts => Except.ok (FallbackEmbedder.encode texts)

/-- Line 34: `model_name = "nomic-ai/nomic-embed-text-v2-moe"`; never
reassigned. -/
def model_name : String := "nomic-ai/nomic-embed-text-v2-moe"

/-- `EmbedRequest` (lines 36-38). -/
structure EmbedRequest where
  texts : List String
  model : Option String
deriving Repr

/-- The `usage` dict built at lines 168-171. -/
structure Usage where
  prompt_tokens : ℕ
  total_tokens : ℕ
deriving Repr, DecidableEq

/-- `EmbedResponse` (lines 40-43). -/
structure EmbedResponse where
  embeddings : List (List ℝ)
  model : String
  usage : Usage

/-- A FastAPI `HTTPException`: status code and detail string. -/
structure HTTPError where
  status : ℕ
  detail : String
deriving Repr, DecidableEq

/-- Python `request.model or model_name` (line 167): `or` takes the
right operand when the left is falsy, i.e. `None` or the empty string. -/
def pyOrStr (a : Option String) (b : String) : String :=
  match a with
  | none => b
  | some s => if s = "" then b else s

/-- `embed_texts` (lines 144-176): the `POST /embed` handler.
Checks in source order: `embedder is None` → 503 (lines 147-148),
`not request.texts` → 400 (lines 150-151), `len(request.texts) > 100`
→ 400 (lines 153-154); then `embedder.encode(request.texts)` with any
exception surfaced as 500 carrying its message (lines 156-176). -/
def embed_texts (embedder : Option Encoder) (req : EmbedRequest) :
    Except HTTPError EmbedResponse :=
  match embedder with
  | none => Except.error ⟨503, "Model not loaded"⟩
  | some enc =>
    if req.texts = [] then Except.error ⟨400, "No texts provided"⟩
    else if req.texts.length > 100 then
      Except.error ⟨400, "Too many texts (max 100)"⟩
    else
      match enc req.texts with
      | Except.ok embs =>
          Except.ok
            { embeddings := embs
              model := pyOrStr req.model model_name
              usage :=
                { prompt_tokens := (req.texts.map countWords).sum
                  total_tokens := (req.texts.map countWords).sum } }
      | Except.error msg => Except.error ⟨500, msg⟩

/-- The handler as a transition on the service state (the global
`embedder`, lines 32-33): the body of `embed_texts` contains no
assignment to the global, so the state passes through unchanged. -/
def embedStep (embedder : Option Encoder) (req : EmbedRequest) :
    Option Encoder × Except HTTPError EmbedResponse :=
  (embedder, embed_texts embedder req)

/-- Outcome of attempting to construct one neural tier in `load_model`:
construction succeeds, raises `ImportError` (the only class the tier's
`except` clause at lines 63/94 catches), or raises any other exception
(model fetch failure, incompatible weights, ...). -/
inductive TierOutcome where
  | success : TierOutcome
  | importError : TierOutcome
  | otherError : String → TierOutcome
deriving Repr, DecidableEq

/-- Which encoder tier `load_model` ends up assigning to `embedder`. -/
inductive ResolvedTier where
  | sentenceTransformers : ResolvedTier
  | transformersEmbedder : ResolvedTier
  | fallback : ResolvedTier
deriving Repr, DecidableEq

/-- `load_model` (lines 50-128), parametrized by the outcome of each
neural tier's construction. Tier 1 (lines 58-64) and tier 2
(lines 66-95) are each wrapped in `try ... except ImportError`; an
exception that is not an `ImportError` escapes the tier's handler,
reaches the outer `except Exception` (lines 126-128), is logged and
re-raised. Tier 3 (lines 97-124) only defines a class and assigns
`FallbackEmbedder()`, which cannot fail. -/
def load_model (t1 t2 : TierOutcome) : Except String ResolvedTier :=
  match t1 with
  | TierOutcome.success => Except.ok ResolvedTier.sentenceTransformers
  | TierOutcome.otherError msg => Except.error msg
  | TierOutcome.importError =>
    match t2 with
    | TierOutcome.success => Except.ok ResolvedTier.transformersEmbedder
    | TierOutcome.otherError msg => Except.error msg
    | TierOutcome.importError => Except.ok ResolvedTier.fallback

/-- A computable stand-in encoder used to instantiate theorems that hold
for every encoder: it returns one empty vector per text. -/
def dummyEnc : Encoder :=
  fun texts => Except.ok (texts.map (fun _ => ([] : List ℝ)))

/-- A stand-in encoder whose `encode` always raises. -/
def failEnc : Encoder := fun _ => Except.error "boom"

/-- Written from the spec's words (spec §4.2 steps 2-3 and claim C1),
for comparison with the source-derived `rawAccum`: the value at index
`j` is the sum, over the first 100 characters of the normalized text at
position `i` with code `c` such that `(c*7 + i*11) mod 768 = j`, of
`sin(c + i) * 0.1` — accumulating additively on index collisions. -/
noncomputable def specAccum (s : String) (j : Fin 768) : ℝ :=
  (((s.data.take 100).enum.filter
      (fun ic => decide (mkIdx ic.2.toNat ic.1 = j))).map
    (fun ic => Real.sin ((ic.2.toNat + ic.1 : ℕ) : ℝ) * 0.1)).sum

/-- Written from the spec's words (claim C1): start from a zero vector
of length 768, accumulate per `specAccum`, then overwrite index 0 with
`log(len(normalized_text) + 1) * 0.1`, clobbering anything accumulated
there. -/
noncomputable def specRawVector (text : String) : Fin 768 → ℝ :=
  let s := normalizeText text
  fun j => if j = 0 then Real.log ((s.length : ℝ) + 1) * 0.1 else specAccum s j

/-- The accumulation loop computes, at each index, the sum of the
contributions of the loop iterations that hashed to that index, on top
of the starting vector. -/
theorem foldl_accumStep (l : List (ℕ × Char)) (v : Fin 768 → ℝ) (j : Fin 768) :
    (l.foldl accumStep v) j =
      v j + ((l.filter (fun ic => decide (mkIdx ic.2.toNat ic.1 = j))).map
        (fun ic => Real.sin ((ic.2.toNat + ic.1 : ℕ) : ℝ) * 0.1)).sum := by
  induction l generalizing v with
  | nil => simp
  | cons ic t ih =>
    rw [List.foldl_cons, ih, List.filter_cons]
    by_cases h : mkIdx ic.2.toNat ic.1 = j
    · simp only [h, decide_True, if_true, List.map_cons, List.sum_cons]
      rw [accumStep, Function.update_apply, if_pos h.symm, h]
      ring
    · simp only [h, decide_False, Bool.false_eq_true, if_false]
      rw [accumStep, Function.update_apply, if_neg (fun hh => h hh.symm)]

/-- A non-empty string has at least one character. -/
theorem one_le_length_of_ne_empty (s : String) (h : s ≠ "") : 1 ≤ s.length := by
  cases s with | mk data =>
  cases data with
  | nil => exact absurd rfl h
  | cons a t => exact Nat.succ_le_succ (Nat.zero_le _)

/-- The raw vector of the empty string is all-zero: the loop runs zero
times and the length feature is `log(0 + 1) * 0.1 = 0`. -/
theorem fallbackRaw_empty (text : String) (h : normalizeText text = "") :
    fallbackRaw text = fun _ => 0 := by
  funext j
  rw [fallbackRaw]
  simp only [h]
  have hz : rawAccum "" = fun _ => (0 : ℝ) := rfl
  rw [hz]
  simp [Function.update_apply, String.length]

/-- When the normalized text is non-empty, the raw vector's entry 0 is
strictly positive (the length feature is `log(len + 1) * 0.1` with
`len ≥ 1`). -/
theorem fallbackRaw_zero_pos (text : String) (h : normalizeText text ≠ "") :
    0 < fallbackRaw text 0 := by
  have hlen := one_le_length_of_ne_empty _ h
  rw [fallbackRaw]
  simp only [Function.update_apply, if_pos rfl]
  have hlog : 0 < Real.log (((normalizeText text).length : ℝ) + 1) := by
    apply Real.log_pos
    have : (1 : ℝ) ≤ ((normalizeText text).length : ℝ) := by exact_mod_cast hlen
    linarith
  exact mul_pos hlog (by norm_num)

/-- When the normalized text is non-empty, the raw vector has strictly
positive L2 norm. -/
theorem l2norm_fallbackRaw_pos (text : String) (h : normalizeText text ≠ "") :
    0 < l2norm (fallbackRaw text) := by
  rw [l2norm]
  apply Real.sqrt_pos.mpr
  calc (0 : ℝ) < fallbackRaw text 0 ^ 2 := pow_pos (fallbackRaw_zero_pos text h) 2
    _ ≤ ∑ j, fallbackRaw text j ^ 2 :=
        Finset.single_le_sum (f := fun j => fallbackRaw text j ^ 2)
          (fun i _ => sq_nonneg _) (Finset.mem_univ (0 : Fin 768))

/-- Dividing a vector of positive norm by its norm yields a unit vector. -/
theorem l2norm_div (v : Fin 768 → ℝ) (h : 0 < l2norm v) :
    l2norm (fun j => v j / l2norm v) = 1 := by
  have hS : (0 : ℝ) < ∑ j, v j ^ 2 := by
    rw [l2norm] at h
    exact Real.sqrt_pos.mp h
  have hsq : (l2norm v) ^ 2 = ∑ j, v j ^ 2 := by
    rw [l2norm]
    exact Real.sq_sqrt (Finset.sum_nonneg fun i _ => sq_nonneg _)
  rw [l2norm]
  have hsum : ∑ j, (v j / l2norm v) ^ 2 = 1 := by
    calc ∑ j, (v j / l2norm v) ^ 2
        = ∑ j, v j ^ 2 / (l2norm v) ^ 2 := by
          refine Finset.sum_congr rfl fun j _ => ?_
          rw [div_pow]
      _ = (∑ j, v j ^ 2) / (l2norm v) ^ 2 := by rw [Finset.sum_div]
      _ = (∑ j, v j ^ 2) / (∑ j, v j ^ 2) := by rw [hsq]
      _ = 1 := div_self (ne_of_gt hS)
  rw [hsum, Real.sqrt_one]

/-- C1: FallbackEncoder's encode, applied to any single text, computes
exactly the specified vector — normalize by lowercasing and stripping,
start from a zero vector of length 768, for each of the first 100
characters at position `i` with code `c` add `sin(c + i) * 0.1` to index
`(c*7 + i*11) mod 768` (accumulating additively on collisions), then
overwrite index 0 with `log(len(normalized_text) + 1) * 0.1`. The
source-derived loop (`fallbackRaw`) coincides with the spec-derived
pointwise description (`specRawVector`); `encode` then normalizes this
vector per text. -/
theorem fallbackRaw_eq_specRawVector (text : String) :
    fallbackRaw text = specRawVector text ∧
    FallbackEmbedder.encode [text] = [List.ofFn (fallbackVector text)] := by
  constructor
  · funext j
    rw [fallbackRaw, specRawVector]
    simp only [Function.update_apply]
    by_cases h : j = 0
    · rw [if_pos h, if_pos h]
    · rw [if_neg h, if_neg h, rawAccum, foldl_accumStep, specAccum]
      simp
  · rfl

/-- C2 counterexample: when tier 1 (sentence-transformers) fails with a
non-ImportError exception — e.g. a model fetch failure — `load_model`
does not proceed to the next tier; the exception escapes the tier's
`except ImportError` clause, reaches the outer handler and is re-raised,
contradicting the claim that every tier-1/tier-2 failure falls through
to the FallbackEncoder. -/
theorem load_model_nonimport_raises_cex :
    load_model (TierOutcome.otherError "model fetch failed") TierOutcome.importError =
      Except.error "model fetch failed" := rfl

/-- C2 (amended): resolution falls through to the next tier only when a
tier fails with ImportError (library absent); a tier-1 or tier-2 failure
of any other kind (model fetch failure, incompatible weights) propagates
out of `load_model` and is fatal. When both neural tiers fail with
ImportError, the FallbackEncoder is used, and that tier never fails to
construct. -/
theorem load_model_spec :
    (∀ t2, load_model TierOutcome.success t2 = Except.ok ResolvedTier.sentenceTransformers) ∧
    load_model TierOutcome.importError TierOutcome.success =
      Except.ok ResolvedTier.transformersEmbedder ∧
    load_model TierOutcome.importError TierOutcome.importError =
      Except.ok ResolvedTier.fallback ∧
    (∀ msg t2, load_model (TierOutcome.otherError msg) t2 = Except.error msg) ∧
    (∀ msg, load_model TierOutcome.importError (TierOutcome.otherError msg) =
      Except.error msg) :=
  ⟨fun _ => rfl, rfl, rfl, fun _ _ => rfl, fun _ => rfl⟩

/-- C4: each FallbackEncoder embedding has L2 norm exactly 1 whenever
the normalized text is non-empty, and is the all-zero vector (index 0
included, since `log(0 + 1) * 0.1 = 0`) whenever the normalized text is
empty; the norm is divided out only when strictly positive, so no
division by zero occurs. -/
theorem fallbackVector_norm (text : String) :
    (normalizeText text = "" → fallbackVector text = fun _ => 0) ∧
    (normalizeText text ≠ "" → l2norm (fallbackVector text) = 1) := by
  constructor
  · intro h
    have hv := fallbackRaw_empty text h
    have hn : l2norm (fun _ : Fin 768 => (0 : ℝ)) = 0 := by
      rw [l2norm]
      simp
    rw [fallbackVector]
    simp only [hv, hn]
    rw [if_neg (lt_irrefl 0)]
  · intro h
    have hn := l2norm_fallbackRaw_pos text h
    rw [fallbackVector]
    simp only [if_pos hn]
    exact l2norm_div (fallbackRaw text) hn

/-- Witness for C4 at concrete inputs: a whitespace-only text normalizes
to the empty string and embeds to the zero vector; "abc" embeds to a
unit vector. -/
theorem fallbackVector_norm_witness :
    fallbackVector " " = (fun _ => 0) ∧ l2norm (fallbackVector "abc") = 1 :=
  ⟨(fallbackVector_norm " ").1 (by decide), (fallbackVector_norm "abc").2 (by decide)⟩

/-- C9: FallbackEncoder's encode is deterministic — it is a function of
the input strings alone, so two calls on equal inputs yield identical
output vectors. -/
theorem encode_deterministic (ts₁ ts₂ : List String) (h : ts₁ = ts₂) :
    FallbackEmbedder.encode ts₁ = FallbackEmbedder.encode ts₂ :=
  congrArg FallbackEmbedder.encode h

/-- Witness for C9: two calls on `["abc"]` agree. -/
theorem encode_deterministic_witness :
    FallbackEmbedder.encode ["abc"] = FallbackEmbedder.encode ["abc"] :=
  encode_deterministic ["abc"] ["abc"] rfl

/-- Inversion of a successful `embed_texts` call: the response's model
label, usage counters, and embeddings are the ones built at
lines 165-172 from the single `embedder.encode(request.texts)` call. -/
theorem embed_texts_ok_inv (enc : Encoder) (req : EmbedRequest) (resp : EmbedResponse)
    (h : embed_texts (some enc) req = Except.ok resp) :
    resp.model = pyOrStr req.model model_name ∧
    resp.usage = ⟨(req.texts.map countWords).sum, (req.texts.map countWords).sum⟩ ∧
    enc req.texts = Except.ok resp.embeddings := by
  simp only [embed_texts] at h
  by_cases h1 : req.texts = []
  · rw [if_pos h1] at h
    exact Except.noConfusion h
  · rw [if_neg h1] at h
    by_cases h2 : req.texts.length > 100
    · rw [if_pos h2] at h
      exact Except.noConfusion h
    · rw [if_neg h2] at h
      cases he : enc req.texts with
      | error msg =>
        rw [he] at h
        exact Except.noConfusion h
      | ok embs =>
        rw [he] at h
        injection h with h
        subst h
        exact ⟨rfl, rfl, rfl⟩

/-- Evaluation of a successful `embed_texts` call on the fallback tier:
with a valid batch, the handler returns the fallback embeddings in input
order together with the model label and word-count usage. -/
theorem embed_texts_fallback_eval (texts : List String) (m : Option String)
    (h1 : texts ≠ []) (h2 : ¬texts.length > 100) :
    embed_texts (some fallbackEncoderE) ⟨texts, m⟩ =
      Except.ok
        { embeddings := texts.map (fun t => List.ofFn (fallbackVector t))
          model := pyOrStr m model_name
          usage := ⟨(texts.map countWords).sum, (texts.map countWords).sum⟩ } := by
  simp only [embed_texts]
  rw [if_neg h1, if_neg h2]
  rfl

/-- C3: for every batch accepted by the embed operation (non-empty, at
most 100 texts) served by the fallback tier, the response holds exactly
one embedding per input text, in input order (entry `i` is the fallback
embedding of `texts[i]`), and every embedding has exactly 768
components. -/
theorem embed_texts_fallback_ok (texts : List String) (m : Option String)
    (h1 : texts ≠ []) (h2 : texts.length ≤ 100) :
    ∃ resp, embed_texts (some fallbackEncoderE) ⟨texts, m⟩ = Except.ok resp ∧
      resp.embeddings = texts.map (fun t => List.ofFn (fallbackVector t)) ∧
      resp.embeddings.length = texts.length ∧
      ∀ e ∈ resp.embeddings, e.length = 768 := by
  refine ⟨_, embed_texts_fallback_eval texts m h1 (not_lt.mpr h2), rfl, ?_, ?_⟩
  · exact List.length_map _ _
  · intro e he
    obtain ⟨t, _, rfl⟩ := List.mem_map.mp he
    exact List.length_ofFn _

/-- Witness for C3 at the batch `["hello"]`. -/
theorem embed_texts_fallback_ok_witness :
    ∃ resp, embed_texts (some fallbackEncoderE) ⟨["hello"], none⟩ = Except.ok resp ∧
      resp.embeddings = ["hello"].map (fun t => List.ofFn (fallbackVector t)) ∧
      resp.embeddings.length = (["hello"] : List String).length ∧
      ∀ e ∈ resp.embeddings, e.length = 768 :=
  embed_texts_fallback_ok ["hello"] none (by decide) (by decide)

/-- C5: the embed operation fails with status 503 and detail
"Model not loaded" when no encoder has been resolved, with 400 and
"No texts provided" on an empty batch, with 400 and
"Too many texts (max 100)" on more than 100 texts; a batch of exactly
100 texts is accepted. -/
theorem embed_texts_error_statuses :
    (∀ req, embed_texts none req = Except.error ⟨503, "Model not loaded"⟩) ∧
    (∀ (enc : Encoder) (m : Option String),
      embed_texts (some enc) ⟨[], m⟩ = Except.error ⟨400, "No texts provided"⟩) ∧
    (∀ (enc : Encoder) (texts : List String) (m : Option String),
      texts.length > 100 →
      embed_texts (some enc) ⟨texts, m⟩ = Except.error ⟨400, "Too many texts (max 100)"⟩) ∧
    (∀ (m : Option String) (texts : List String), texts.length = 100 →
      ∃ resp, embed_texts (some fallbackEncoderE) ⟨texts, m⟩ = Except.ok resp) := by
  refine ⟨fun req => rfl, fun enc m => rfl, fun enc texts m hgt => ?_, fun m texts hlen => ?_⟩
  · have h1 : texts ≠ [] := by
      intro e
      rw [e] at hgt
      simp at hgt
    simp only [embed_texts]
    rw [if_neg h1, if_pos hgt]
  · have h1 : texts ≠ [] := by
      intro e
      rw [e] at hlen
      simp at hlen
    have h2 : ¬texts.length > 100 := by omega
    exact ⟨_, embed_texts_fallback_eval texts m h1 h2⟩

/-- Witness for C5: a batch of 101 texts is rejected with the exact 400
error, and a batch of exactly 100 texts is accepted. -/
theorem embed_texts_error_statuses_witness :
    embed_texts (some dummyEnc) ⟨List.replicate 101 "x", none⟩ =
      Except.error ⟨400, "Too many texts (max 100)"⟩ ∧
    ∃ resp, embed_texts (some fallbackEncoderE) ⟨List.replicate 100 "x", none⟩ =
      Except.ok resp :=
  ⟨embed_texts_error_statuses.2.2.1 dummyEnc (List.replicate 101 "x") none (by decide),
   embed_texts_error_statuses.2.2.2 none (List.replicate 100 "x") (by decide)⟩

/-- C6: an exception raised by the active encoder during `encode` on a
valid request is caught and surfaced as a 500 error carrying the
underlying message, and the service state is unchanged: the same
encoder remains assigned (the handler never writes the global). -/
theorem embedStep_encode_failure (enc : Encoder) (req : EmbedRequest) (msg : String)
    (h1 : req.texts ≠ []) (h2 : req.texts.length ≤ 100)
    (h3 : enc req.texts = Except.error msg) :
    embedStep (some enc) req = (some enc, Except.error ⟨500, msg⟩) := by
  have he : embed_texts (some enc) req = Except.error ⟨500, msg⟩ := by
    simp only [embed_texts]
    rw [if_neg h1, if_neg (not_lt.mpr h2), h3]
  rw [embedStep, he]

/-- Witness for C6: an encoder whose `encode` raises "boom" yields a 500
with detail "boom" and leaves the state untouched. -/
theorem embedStep_encode_failure_witness :
    embedStep (some failEnc) ⟨["a"], none⟩ = (some failEnc, Except.error ⟨500, "boom"⟩) :=
  embedStep_encode_failure failEnc ⟨["a"], none⟩ "boom" (by decide) (by decide) rfl

/-- C7: every successful embed call reports `prompt_tokens` and
`total_tokens` both equal to the sum over the input texts of their
whitespace-delimited word counts. -/
theorem embed_texts_usage (enc : Encoder) (texts : List String) (m : Option String)
    (resp : EmbedResponse)
    (h : embed_texts (some enc) ⟨texts, m⟩ = Except.ok resp) :
    resp.usage.prompt_tokens = (texts.map countWords).sum ∧
    resp.usage.total_tokens = (texts.map countWords).sum := by
  have hu := (embed_texts_ok_inv enc ⟨texts, m⟩ resp h).2.1
  rw [hu]
  exact ⟨rfl, rfl⟩

/-- Witness for C7: the batch `["a b c", "d e"]` yields
`prompt_tokens = 5` and `total_tokens = 5`. -/
theorem embed_texts_usage_witness :
    ∃ resp, embed_texts (some dummyEnc) ⟨["a b c", "d e"], none⟩ = Except.ok resp ∧
      resp.usage.prompt_tokens = 5 ∧ resp.usage.total_tokens = 5 := by
  obtain ⟨hp, ht⟩ := embed_texts_usage dummyEnc ["a b c", "d e"] none
    { embeddings := [[], []], model := model_name, usage := ⟨5, 5⟩ } rfl
  exact ⟨{ embeddings := [[], []], model := model_name, usage := ⟨5, 5⟩ }, rfl,
    hp.trans (by decide), ht.trans (by decide)⟩

/-- C8 counterexample: a request that provides the model name `""` is
labeled with the resolved identifier, not the requested name — Python's
`request.model or model_name` treats a provided empty string as absent.
The claim that the response's model field equals the requested name
whenever one was provided is therefore false. -/
theorem embed_texts_model_label_cex :
    embed_texts (some dummyEnc) ⟨["a"], some ""⟩ =
      Except.ok { embeddings := [[]], model := model_name, usage := ⟨1, 1⟩ } ∧
    model_name ≠ "" :=
  ⟨rfl, by decide⟩

/-- C8 (amended): for every successful embed call, the response's model
field equals the requested model name when a non-empty one was provided,
and the resolved model identifier when the field was omitted or empty
(Python `or` treats `""` as absent); the requested name never changes
which encoder runs — the embeddings and usage are those of the single
active encoder regardless of the requested model. -/
theorem embed_texts_model_label (enc : Encoder) (texts : List String) :
    (∀ s resp, s ≠ "" →
      embed_texts (some enc) ⟨texts, some s⟩ = Except.ok resp → resp.model = s) ∧
    (∀ resp, embed_texts (some enc) ⟨texts, some ""⟩ = Except.ok resp →
      resp.model = model_name) ∧
    (∀ resp, embed_texts (some enc) ⟨texts, none⟩ = Except.ok resp →
      resp.model = model_name) ∧
    (∀ m₁ m₂ r₁ r₂, embed_texts (some enc) ⟨texts, m₁⟩ = Except.ok r₁ →
      embed_texts (some enc) ⟨texts, m₂⟩ = Except.ok r₂ →
      r₁.embeddings = r₂.embeddings ∧ r₁.usage = r₂.usage) := by
  refine ⟨fun s resp hs h => ?_, fun resp h => ?_, fun resp h => ?_,
    fun m₁ m₂ r₁ r₂ h₁ h₂ => ?_⟩
  · rw [(embed_texts_ok_inv enc _ resp h).1]
    simp only [pyOrStr]
    rw [if_neg hs]
  · rw [(embed_texts_ok_inv enc _ resp h).1]
    rfl
  · rw [(embed_texts_ok_inv enc _ resp h).1]
    rfl
  · obtain ⟨-, hu₁, he₁⟩ := embed_texts_ok_inv enc _ r₁ h₁
    obtain ⟨-, hu₂, he₂⟩ := embed_texts_ok_inv enc _ r₂ h₂
    refine ⟨?_, hu₁.trans hu₂.symm⟩
    have := he₁.symm.trans he₂
    injection this

/-- Witness for C8 (amended): a non-empty requested name "m" labels the
response, and an omitted one labels it with the resolved identifier. -/
theorem embed_texts_model_label_witness :
    (({ embeddings := [[]], model := "m", usage := ⟨1, 1⟩ } : EmbedResponse)).model = "m" ∧
    (({ embeddings := [[]], model := model_name, usage := ⟨1, 1⟩ } : EmbedResponse)).model =
      model_name :=
  ⟨(embed_texts_model_label dummyEnc ["a"]).1 "m"
      { embeddings := [[]], model := "m", usage := ⟨1, 1⟩ } (by decide) rfl,
   (embed_texts_model_label dummyEnc ["a"]).2.2.1
      { embeddings := [[]], model := model_name, usage := ⟨1, 1⟩ } rfl⟩

/-- C10: the embed operation's checks run in source order before the
encoder is touched — the missing-encoder check first (so the response is
503 for every request, empty or oversized included, when no encoder is
resolved), and a request failing validation produces the same response
under every encoder, i.e. the active encoder is never consulted. -/
theorem embed_texts_check_order :
    (∀ req, embed_texts none req = Except.error ⟨503, "Model not loaded"⟩) ∧
    (∀ (e₁ e₂ : Encoder) (req : EmbedRequest),
      req.texts = [] ∨ req.texts.length > 100 →
      embed_texts (some e₁) req = embed_texts (some e₂) req) := by
  refine ⟨fun req => rfl, fun e₁ e₂ req h => ?_⟩
  simp only [embed_texts]
  rcases h with h | h
  · rw [if_pos h, if_pos h]
  · have h1 : ¬req.texts = [] := by
      intro e
      rw [e] at h
      simp at h
    rw [if_neg h1, if_neg h1, if_pos h, if_pos h]

/-- Witness for C10: with no encoder resolved, an empty batch still gets
the 503; with an encoder resolved, an empty batch yields the same
response whether the encoder succeeds or always raises. -/
theorem embed_texts_check_order_witness :
    embed_texts none ⟨[], none⟩ = Except.error ⟨503, "Model not loaded"⟩ ∧
    embed_texts (some dummyEnc) ⟨[], none⟩ = embed_texts (some failEnc) ⟨[], none⟩ :=
  ⟨embed_texts_check_order.1 ⟨[], none⟩,
   embed_texts_check_order.2 dummyEnc failEnc ⟨[], none⟩ (Or.inl rfl)⟩

end EmbeddingServer
